import Mathlib

/-!
Verification of the SVG benchmark front-end (src/app.py).

The program sends a fixed prompt to four provider APIs, extracts the first
`<svg ...>...</svg>` span from each textual response with the Python regex
`<svg[^>]*>.*?</svg>` compiled with `re.DOTALL | re.IGNORECASE`, collects one
outcome record per model, and renders the extracted SVG as a base64 data URI.

The embedding below models:
* `extract_svg_content` — the regex search, as an explicit leftmost-match
  scanner over the lowercased character list (IGNORECASE is realised by
  lowercasing, DOTALL by the scanner never treating newline specially);
* the four adapters `call_gemini`, `call_claude`, `call_azure_gpt4`,
  `call_deepseek` — effectful HTTP/SDK calls are abstracted by an
  `HttpAnswer` record describing the single request's outcome; each adapter
  also reports how many HTTP requests it issued;
* `test_model` — the per-model try/except boundary producing a
  `BenchmarkResult`;
* `run_benchmark` — the sequential coordinator loop plus the success signal
  (`st.balloons`) condition;
* `display_svg` — the renderer's attribute-injection step
  (`'viewBox' not in s and 'width' not in s` followed by
  `s.replace('<svg', '<svg viewBox=... width=... height=...')`).
-/

/-- Lowercase a character list; models Python `re.IGNORECASE` matching of the
all-lowercase pattern by comparing on lowercased text. -/
def lowerL (l : List Char) : List Char := l.map Char.toLower

/-- The opening-tag pattern literal `<svg` of the regex. -/
def svgOpenPat : List Char := ['<', 's', 'v', 'g']

/-- The closing-tag pattern literal `</svg>` of the regex. -/
def svgClosePat : List Char := ['<', '/', 's', 'v', 'g', '>']

/-- Boolean test that `p` is a prefix of `l`. -/
def hasPrefixL : List Char → List Char → Bool
  | [], _ => true
  | _ :: _, [] => false
  | p :: ps, c :: cs => p == c && hasPrefixL ps cs

/-- Index of the first `>` character, if any; models the deterministic
behaviour of `[^>]*>` at a fixed start position. -/
def findGt : List Char → Option Nat
  | [] => none
  | c :: rest => if c = '>' then some 0 else (findGt rest).map (· + 1)

/-- Index of the first occurrence of `pat` in `l`, if any; models the lazy
`.*?pat` search from a fixed start position. -/
def firstOccIdx (pat : List Char) : List Char → Option Nat
  | [] => if hasPrefixL pat [] then some 0 else none
  | c :: rest =>
    if hasPrefixL pat (c :: rest) then some 0
    else (firstOccIdx pat rest).map (· + 1)

/-- Attempt to match `<svg[^>]*>.*?</svg>` at the head of `l` (already
lowercased); returns the length of the match. -/
def matchSvgAt (l : List Char) : Option Nat :=
  if hasPrefixL svgOpenPat l then
    match findGt (l.drop 4) with
    | none => none
    | some m =>
      match firstOccIdx svgClosePat (l.drop (4 + m + 1)) with
      | none => none
      | some k => some (4 + m + 1 + k + 6)
  else none

/-- Leftmost match of the pattern in `l`: start index and length, as
`re.search` computes it. -/
def svgSearch : List Char → Option (Nat × Nat)
  | [] => none
  | c :: rest =>
    match matchSvgAt (c :: rest) with
    | some len => some (0, len)
    | none => (svgSearch rest).map (fun p => (p.1 + 1, p.2))

/-- `extract_svg_content` from src/app.py: `None` on falsy input, otherwise the
first `<svg[^>]*>.*?</svg>` match (DOTALL, IGNORECASE) returned verbatim from
the original text, else `None`. -/
def extract_svg_content (text : Option String) : Option String :=
  match text with
  | none => none
  | some s =>
    if s = "" then none
    else
      match svgSearch (lowerL s.toList) with
      | none => none
      | some (i, len) => some (String.mk ((s.toList.drop i).take len))

/-- Per-model outcome record built by `test_model`. -/
structure BenchmarkResult where
  model_name : String
  success : Bool
  svg_content : Option String
  error : Option String
deriving DecidableEq, Repr

/-- An entry of the `MODELS` table. -/
structure ModelInfo where
  id : String
  name : String
  type : String
deriving DecidableEq, Repr

/-- The `MODELS` table from src/app.py. -/
def MODELS : List ModelInfo :=
  [{ id := "gemini-2.5-pro", name := "Gemini 2.5 Pro", type := "vertex" },
   { id := "claude-3-5-sonnet-20241022", name := "Claude 3.5 Sonnet", type := "anthropic" },
   { id := "gpt-4", name := "Azure GPT-4", type := "azure" },
   { id := "deepseek-chat", name := "DeepSeek R1-0528", type := "deepseek" }]

/-- Outcome of the single HTTP request an adapter may issue: an optional
transport-level exception, the HTTP status, and the value found at
`choices[0].message.content` of the JSON body if that path exists. -/
structure HttpAnswer where
  transport : Option String
  status : Nat
  body : Option String
deriving DecidableEq, Repr

/-- `call_gemini` from src/app.py: reads `st.secrets["google_creds"]` (raising
`KeyError` when absent), issues one SDK generate call, and wraps the returned
text as `choices[0].message.content`. The second component counts issued
requests. -/
def call_gemini (creds : Option String) (sdk : Except String String) :
    Except String (Option String) × Nat :=
  match creds with
  | none => (Except.error "KeyError: google_creds", 0)
  | some _ =>
    match sdk with
    | Except.error e => (Except.error e, 1)
    | Except.ok text => (Except.ok (some text), 1)

/-- `call_claude` from src/app.py: reads `st.secrets["ANTHROPIC_API_KEY"]`
(raising `KeyError` when absent), posts once, then indexes
`result["content"][0]["text"]` without any status check — a missing path
raises, and the text is re-wrapped as `choices[0].message.content`. -/
def call_claude (key : Option String) (ans : HttpAnswer) :
    Except String (Option String) × Nat :=
  match key with
  | none => (Except.error "KeyError: ANTHROPIC_API_KEY", 0)
  | some _ =>
    match ans.transport with
    | some e => (Except.error e, 1)
    | none =>
      match ans.body with
      | none => (Except.error "KeyError: content", 1)
      | some text => (Except.ok (some text), 1)

/-- `call_azure_gpt4` from src/app.py: reads `st.secrets["AZURE_OPENAI_KEY"]`
(raising `KeyError` when absent), posts once, calls `raise_for_status()`
(which raises exactly on 4xx/5xx), and returns the raw JSON body. -/
def call_azure_gpt4 (key : Option String) (ans : HttpAnswer) :
    Except String (Option String) × Nat :=
  match key with
  | none => (Except.error "KeyError: AZURE_OPENAI_KEY", 0)
  | some _ =>
    match ans.transport with
    | some e => (Except.error e, 1)
    | none =>
      if 400 ≤ ans.status ∧ ans.status < 600 then (Except.error "HTTPError", 1)
      else (Except.ok ans.body, 1)

/-- `call_deepseek` from src/app.py: the whole body sits in
`try: ... except Exception: st.error(...); return empty-content response`.
Inside the try it reads credentials, refreshes the token, posts once, returns
an empty-content response on 404, raises on other 4xx/5xx, and otherwise
returns the raw JSON body. Every raised error is caught and converted to an
empty-content response, so the caller never sees an exception. -/
def call_deepseek (creds : Option String) (refreshOk : Bool) (ans : HttpAnswer) :
    Except String (Option String) × Nat :=
  let inner : Except String (Option String) × Nat :=
    match creds with
    | none => (Except.error "KeyError: google_creds", 0)
    | some _ =>
      if refreshOk then
        match ans.transport with
        | some e => (Except.error e, 1)
        | none =>
          if ans.status = 404 then (Except.ok (some ""), 1)
          else if 400 ≤ ans.status ∧ ans.status < 600 then (Except.error "HTTPError", 1)
          else (Except.ok ans.body, 1)
      else (Except.error "RefreshError", 0)
  match inner with
  | (Except.error _, n) => (Except.ok (some ""), n)
  | (Except.ok r, n) => (Except.ok r, n)

/-- The external world a benchmark run interacts with: the secrets store and
the outcome of each provider's single network/SDK interaction. -/
structure Env where
  googleCreds : Option String
  refreshOk : Bool
  geminiSdk : Except String String
  anthropicKey : Option String
  claudeAns : HttpAnswer
  azureKey : Option String
  azureAns : HttpAnswer
  deepseekAns : HttpAnswer

/-- The dispatch at the top of `test_model`: select the adapter by
`model_info["type"]` and run it; when no branch matches, the local variable
`response` is unbound and the subsequent read raises `NameError`. The result
is the value of `response["choices"][0]["message"]["content"]` if it exists
(`Except.ok (some _)`), `Except.ok none` when the returned JSON lacks that
path, and `Except.error` when an exception was raised. -/
def adapterDispatch (env : Env) (m : ModelInfo) : Except String (Option String) :=
  if m.type = "vertex" then (call_gemini env.googleCreds env.geminiSdk).1
  else if m.type = "anthropic" then (call_claude env.anthropicKey env.claudeAns).1
  else if m.type = "azure" then (call_azure_gpt4 env.azureKey env.azureAns).1
  else if m.type = "deepseek" then (call_deepseek env.googleCreds env.refreshOk env.deepseekAns).1
  else Except.error "NameError: name response is not defined"

/-- Python truthiness of the optional extracted SVG (`bool(svg_content)`). -/
def pyTruthy : Option String → Bool
  | none => false
  | some s => !(s == "")

/-- `test_model` from src/app.py: everything runs inside `try/except`; any
raised exception is downgraded to a failed `BenchmarkResult`, otherwise the
response content goes through `extract_svg_content` and the record fields are
derived from the truthiness of the extraction result. -/
def test_model (env : Env) (m : ModelInfo) : BenchmarkResult :=
  match adapterDispatch env m with
  | Except.error e =>
    { model_name := m.name, success := false, svg_content := none, error := some e }
  | Except.ok body =>
    match body with
    | none =>
      { model_name := m.name, success := false, svg_content := none,
        error := some "KeyError: choices" }
    | some content =>
      let svg := extract_svg_content (some content)
      { model_name := m.name, success := pyTruthy svg, svg_content := svg,
        error := if pyTruthy svg then none else some "No valid SVG generated" }

/-- The `for i, model in enumerate(selected_models)` loop of `run_benchmark`:
one `test_model` call per selected model, appended in iteration order. -/
def run_benchmark_loop (env : Nat → Env) : List ModelInfo → Nat → List BenchmarkResult
  | [], _ => []
  | m :: rest, i => test_model (env i) m :: run_benchmark_loop env rest (i + 1)

/-- `run_benchmark` from src/app.py: runs the loop, stores the full result
list into session state (first component), and shows the success signal
(`st.balloons`) exactly when the list of successful results is non-empty
(second component). -/
def run_benchmark (selected : List ModelInfo) (env : Nat → Env) :
    List BenchmarkResult × Bool :=
  let results := run_benchmark_loop env selected 0
  (results, decide (0 < (results.filter (fun r => r.success)).length))

/-- Boolean substring test, modelling Python's case-sensitive `pat in s`. -/
def containsSub (pat l : List Char) : Bool := (firstOccIdx pat l).isSome

/-- The replacement text of `display_svg`'s `str.replace` call. -/
def svgInjected : String := "<svg viewBox=\"0 0 400 300\" width=\"400\" height=\"300\""

/-- Python's `s.replace('<svg', svgInjected)`: replace every non-overlapping
occurrence of the exact lowercase substring `<svg`, scanning left to right and
never rescanning inserted text. -/
def replaceSvgOpen : List Char → List Char
  | [] => []
  | '<' :: 's' :: 'v' :: 'g' :: rest => svgInjected.toList ++ replaceSvgOpen rest
  | c :: rest => c :: replaceSvgOpen rest

/-- `display_svg` from src/app.py, up to base64 encoding: `None` models the
error-indicator branch for falsy input; otherwise the returned string is the
exact text passed to `base64.b64encode`. Default attributes are injected by
`replace` iff neither `viewBox` nor `width` occurs as a (case-sensitive)
substring. -/
def display_svg (svg_content : Option String) : Option String :=
  match svg_content with
  | none => none
  | some s =>
    if s = "" then none
    else if !containsSub ("viewBox".toList) s.toList
            && !containsSub ("width".toList) s.toList then
      some (String.mk (replaceSvgOpen s.toList))
    else some s

/-! ### Basic list lemmas -/

lemma hasPrefixL_iff (p : List Char) : ∀ s, hasPrefixL p s = true ↔ p <+: s := by
  induction p with
  | nil => intro s; simp [hasPrefixL]
  | cons a p ih =>
    intro s
    cases s with
    | nil =>
      constructor
      · intro h; exact absurd h (by simp [hasPrefixL])
      · rintro ⟨t, ht⟩
        simp at ht
    | cons c cs =>
      simp only [hasPrefixL, Bool.and_eq_true, beq_iff_eq, ih]
      constructor
      · rintro ⟨rfl, t, rfl⟩
        exact ⟨t, rfl⟩
      · rintro ⟨t, ht⟩
        rw [List.cons_append] at ht
        injection ht with h1 h2
        exact ⟨h1, t, h2⟩

lemma hasPrefixL_self_append (p l : List Char) : hasPrefixL p (p ++ l) = true :=
  (hasPrefixL_iff p (p ++ l)).mpr ⟨l, rfl⟩

lemma drop_succ_cons' (n : Nat) (a : Char) (l : List Char) :
    (a :: l).drop (n + 1) = l.drop n := rfl

lemma dropAppendLen (u : List Char) : ∀ v : List Char, (u ++ v).drop u.length = v := by
  induction u with
  | nil => intro v; rfl
  | cons a u ih => intro v; simp

lemma takeAppendLen (u : List Char) : ∀ v : List Char, (u ++ v).take u.length = u := by
  induction u with
  | nil => intro v; rfl
  | cons a u ih => intro v; simp

lemma dropAppendCons (b : Char) : ∀ (A T : List Char),
    (A ++ (b :: T)).drop (A.length + 1) = T := by
  intro A
  induction A with
  | nil => intro T; rfl
  | cons a A ih =>
    intro T
    simp [drop_succ_cons', ih T]

lemma dropAppendLe (v : List Char) : ∀ (u : List Char) (j : Nat), j ≤ u.length →
    (u ++ v).drop j = u.drop j ++ v := by
  intro u
  induction u with
  | nil =>
    intro j hj
    have : j = 0 := Nat.le_zero.mp (by simpa using hj)
    subst this
    rfl
  | cons a u ih =>
    intro j hj
    cases j with
    | zero => rfl
    | succ j => simpa [drop_succ_cons'] using ih j (by simpa using hj)

/-! ### findGt: the deterministic behaviour of `[^>]*>` -/

lemma findGt_complete : ∀ (A rest : List Char), '>' ∉ A →
    findGt (A ++ ('>' :: rest)) = some A.length := by
  intro A
  induction A with
  | nil => intro rest _; simp [findGt]
  | cons a A ih =>
    intro rest h
    have ha : ¬ a = '>' := by
      intro hh; exact h (by simp [hh])
    have hA : '>' ∉ A := fun hm => h (by simp [hm])
    simp [findGt, ha, ih rest hA]

lemma findGt_sound : ∀ (l : List Char) (m : Nat), findGt l = some m →
    ∃ A rest, l = A ++ ('>' :: rest) ∧ A.length = m ∧ '>' ∉ A := by
  intro l
  induction l with
  | nil => intro m h; simp [findGt] at h
  | cons c rest ih =>
    intro m h
    by_cases hc : c = '>'
    · simp [findGt, hc] at h
      exact ⟨[], rest, by simp [hc], by simp [h.symm], by simp⟩
    · simp only [findGt, if_neg hc, Option.map_eq_some'] at h
      obtain ⟨m', hm', rfl⟩ := h
      obtain ⟨A, r, hl, hlen, hmem⟩ := ih m' hm'
      refine ⟨c :: A, r, by simp [hl], by simp [hlen], ?_⟩
      intro hmem'
      rcases List.mem_cons.mp hmem' with h1 | h1
      · exact hc h1.symm
      · exact hmem h1

/-! ### firstOccIdx: leftmost occurrence of a pattern -/

lemma firstOccIdx_complete (pat : List Char) : ∀ (u v : List Char),
    (∀ j < u.length, ¬ pat <+: (u ++ (pat ++ v)).drop j) →
    firstOccIdx pat (u ++ (pat ++ v)) = some u.length := by
  intro u
  induction u with
  | nil =>
    intro v _
    rcases hl : pat ++ v with _ | ⟨c, rest⟩
    · have : pat = [] := by
        rcases List.append_eq_nil.mp hl with ⟨h1, _⟩; exact h1
      simp [firstOccIdx, this, hasPrefixL]
    · have hp : hasPrefixL pat (c :: rest) = true :=
        (hasPrefixL_iff pat (c :: rest)).mpr ⟨v, hl⟩
      simp [firstOccIdx, hl, hp]
  | cons a u ih =>
    intro v h
    have h0 : ¬ pat <+: (a :: (u ++ (pat ++ v))) := by
      have := h 0 (by simp)
      simpa using this
    have hp : hasPrefixL pat (a :: (u ++ (pat ++ v))) = false := by
      rcases hb : hasPrefixL pat (a :: (u ++ (pat ++ v))) with _ | _
      · rfl
      · exact absurd ((hasPrefixL_iff _ _).mp hb) h0
    have hrec := ih v (fun j hj => by
      have := h (j + 1) (by simpa using Nat.succ_lt_succ hj)
      simpa [drop_succ_cons'] using this)
    simp [firstOccIdx, hp, hrec]

lemma firstOccIdx_sound (pat : List Char) : ∀ (l : List Char) (k : Nat),
    firstOccIdx pat l = some k →
    pat <+: l.drop k ∧ ∀ j < k, ¬ pat <+: l.drop j := by
  intro l
  induction l with
  | nil =>
    intro k h
    rcases hb : hasPrefixL pat [] with _ | _
    · simp [firstOccIdx, hb] at h
    · simp [firstOccIdx, hb] at h
      exact ⟨by simpa [h.symm] using (hasPrefixL_iff pat []).mp hb, by omega⟩
  | cons c rest ih =>
    intro k h
    rcases hb : hasPrefixL pat (c :: rest) with _ | _
    · simp only [firstOccIdx, hb, Bool.false_eq_true, if_false, Option.map_eq_some'] at h
      obtain ⟨k', hk', rfl⟩ := h
      obtain ⟨h1, h2⟩ := ih k' hk'
      refine ⟨by simpa [drop_succ_cons'] using h1, ?_⟩
      intro j hj
      cases j with
      | zero =>
        intro hpre
        have : hasPrefixL pat (c :: rest) = true := (hasPrefixL_iff _ _).mpr (by simpa using hpre)
        rw [hb] at this; exact Bool.false_ne_true this
      | succ j =>
        have := h2 j (by omega)
        simpa [drop_succ_cons'] using this
    · simp [firstOccIdx, hb] at h
      exact ⟨by simpa [h.symm] using (hasPrefixL_iff _ _).mp hb, by omega⟩

/-! ### The regex scanner: completeness and soundness -/

lemma drop4_open (X : List Char) : (svgOpenPat ++ X).drop 4 = X := rfl

lemma dropOpenAttrs (A T : List Char) :
    (svgOpenPat ++ (A ++ ('>' :: T))).drop (4 + A.length + 1) = T := by
  have h : 4 + A.length + 1 = A.length + 1 + 1 + 1 + 1 + 1 := by omega
  rw [h]
  show (('<' :: 's' :: 'v' :: 'g' :: (A ++ ('>' :: T))) : List Char).drop
      (A.length + 1 + 1 + 1 + 1 + 1) = T
  rw [drop_succ_cons', drop_succ_cons', drop_succ_cons', drop_succ_cons']
  exact dropAppendCons '>' A T

lemma matchSvgAt_complete (A B R : List Char) (hA : '>' ∉ A)
    (hB : ∀ j < B.length, ¬ svgClosePat <+: (B ++ (svgClosePat ++ R)).drop j) :
    matchSvgAt (svgOpenPat ++ (A ++ ('>' :: (B ++ (svgClosePat ++ R))))) =
      some (4 + A.length + 1 + B.length + 6) := by
  have hpre := hasPrefixL_self_append svgOpenPat (A ++ ('>' :: (B ++ (svgClosePat ++ R))))
  have hgt : findGt ((svgOpenPat ++ (A ++ ('>' :: (B ++ (svgClosePat ++ R))))).drop 4)
      = some A.length := by
    rw [drop4_open]
    exact findGt_complete A _ hA
  have hocc : firstOccIdx svgClosePat
      ((svgOpenPat ++ (A ++ ('>' :: (B ++ (svgClosePat ++ R))))).drop (4 + A.length + 1))
      = some B.length := by
    rw [dropOpenAttrs]
    exact firstOccIdx_complete svgClosePat B R hB
  simp [matchSvgAt, hpre, hgt, hocc]

lemma matchSvgAt_none (l : List Char) (h : ¬ svgOpenPat <+: l) : matchSvgAt l = none := by
  have hb : hasPrefixL svgOpenPat l = false := by
    rcases hb : hasPrefixL svgOpenPat l with _ | _
    · rfl
    · exact absurd ((hasPrefixL_iff _ _).mp hb) h
  simp [matchSvgAt, hb]

lemma svgSearch_cons_some (c : Char) (rest : List Char) (len : Nat)
    (h : matchSvgAt (c :: rest) = some len) : svgSearch (c :: rest) = some (0, len) := by
  simp [svgSearch, h]

lemma svgSearch_cons_none (c : Char) (rest : List Char)
    (h : matchSvgAt (c :: rest) = none) :
    svgSearch (c :: rest) = (svgSearch rest).map (fun p => (p.1 + 1, p.2)) := by
  simp [svgSearch, h]

lemma svgSearch_complete (pre : List Char) : ∀ (A B R : List Char),
    (∀ j < pre.length,
      ¬ svgOpenPat <+: (pre ++ (svgOpenPat ++ (A ++ ('>' :: (B ++ (svgClosePat ++ R)))))).drop j) →
    '>' ∉ A →
    (∀ j < B.length, ¬ svgClosePat <+: (B ++ (svgClosePat ++ R)).drop j) →
    svgSearch (pre ++ (svgOpenPat ++ (A ++ ('>' :: (B ++ (svgClosePat ++ R)))))) =
      some (pre.length, 4 + A.length + 1 + B.length + 6) := by
  induction pre with
  | nil =>
    intro A B R _ hA hB
    have hm := matchSvgAt_complete A B R hA hB
    have : svgSearch ('<' :: ('s' :: 'v' :: 'g' :: (A ++ ('>' :: (B ++ (svgClosePat ++ R))))))
        = some (0, 4 + A.length + 1 + B.length + 6) := svgSearch_cons_some _ _ _ hm
    simpa using this
  | cons c pre ih =>
    intro A B R hpre hA hB
    have h0 : ¬ svgOpenPat <+:
        (c :: (pre ++ (svgOpenPat ++ (A ++ ('>' :: (B ++ (svgClosePat ++ R))))))) := by
      have := hpre 0 (by simp)
      simpa using this
    have hshift : ∀ j < pre.length,
        ¬ svgOpenPat <+: (pre ++ (svgOpenPat ++ (A ++ ('>' :: (B ++ (svgClosePat ++ R)))))).drop j := by
      intro j hj
      have := hpre (j + 1) (by simpa using Nat.succ_lt_succ hj)
      simpa [drop_succ_cons'] using this
    rw [List.cons_append, svgSearch_cons_none _ _ (matchSvgAt_none _ h0), ih A B R hshift hA hB]
    simp

lemma matchSvgAt_sound (l : List Char) (len : Nat) (h : matchSvgAt l = some len) :
    ∃ A B R, l = svgOpenPat ++ (A ++ ('>' :: (B ++ (svgClosePat ++ R)))) ∧
      len = 4 + A.length + 1 + B.length + 6 ∧ '>' ∉ A ∧
      (∀ j < B.length, ¬ svgClosePat <+: (B ++ (svgClosePat ++ R)).drop j) := by
  by_cases hb : hasPrefixL svgOpenPat l = true
  · unfold matchSvgAt at h
    rw [if_pos hb] at h
    rcases hgt : findGt (l.drop 4) with _ | m
    · rw [hgt] at h; cases h
    · rw [hgt] at h
      have h' : (match firstOccIdx svgClosePat (l.drop (4 + m + 1)) with
          | none => none
          | some k => some (4 + m + 1 + k + 6)) = some len := h
      clear h
      rcases hocc : firstOccIdx svgClosePat (l.drop (4 + m + 1)) with _ | k
      · rw [hocc] at h'; cases h'
      · rw [hocc] at h'
        injection h' with hlen
        obtain ⟨X, hX⟩ := (hasPrefixL_iff _ _).mp hb
        have hdX : l.drop 4 = X := by rw [← hX]; exact drop4_open X
        rw [hdX] at hgt
        obtain ⟨A, T, hXe, hAlen, hAmem⟩ := findGt_sound X m hgt
        subst hAlen
        have hdT : l.drop (4 + A.length + 1) = T := by
          rw [← hX, hXe]
          exact dropOpenAttrs A T
        rw [hdT] at hocc
        obtain ⟨hocc1, hocc2⟩ := firstOccIdx_sound svgClosePat T k hocc
        obtain ⟨R, hR⟩ := hocc1
        have hkle : k ≤ T.length := by
          by_contra hlt
          push_neg at hlt
          have hnil : T.drop k = [] := List.drop_eq_nil_of_le (le_of_lt hlt)
          rw [hnil] at hR
          have : svgClosePat = [] := (List.append_eq_nil.mp hR).1
          simp [svgClosePat] at this
        have hT : T = T.take k ++ (svgClosePat ++ R) := by
          rw [hR]
          exact (List.take_append_drop k T).symm
        have hBlen : (T.take k).length = k := by
          simp [List.length_take, Nat.min_eq_left hkle]
        refine ⟨A, T.take k, R, ?_, ?_, hAmem, ?_⟩
        · rw [← hX, hXe, ← hT]
        · omega
        · intro j hj
          rw [← hT]
          exact hocc2 j (by omega)
  · unfold matchSvgAt at h
    rw [if_neg hb] at h
    cases h

lemma svgSearch_sound : ∀ (l : List Char) (i len : Nat), svgSearch l = some (i, len) →
    ∃ A B R, l.drop i = svgOpenPat ++ (A ++ ('>' :: (B ++ (svgClosePat ++ R)))) ∧
      len = 4 + A.length + 1 + B.length + 6 ∧ '>' ∉ A ∧
      (∀ j < B.length, ¬ svgClosePat <+: (B ++ (svgClosePat ++ R)).drop j) := by
  intro l
  induction l with
  | nil => intro i len h; simp [svgSearch] at h
  | cons c rest ih =>
    intro i len h
    rcases hm : matchSvgAt (c :: rest) with _ | len'
    · rw [svgSearch_cons_none _ _ hm] at h
      rcases hs : svgSearch rest with _ | p
      · rw [hs] at h; cases h
      · rw [hs] at h
        simp only [Option.map_some'] at h
        injection h with h
        injection h with hi hlen
        obtain ⟨A, B, R, h1, h2, h3, h4⟩ := ih p.1 p.2 (by rw [hs])
        subst hi; subst hlen
        exact ⟨A, B, R, by rw [drop_succ_cons']; exact h1, h2, h3, h4⟩
    · rw [svgSearch_cons_some _ _ _ hm] at h
      injection h with h
      injection h with hi hlen
      obtain ⟨A, B, R, h1, h2, h3, h4⟩ := matchSvgAt_sound _ _ hm
      subst hi; subst hlen
      exact ⟨A, B, R, h1, h2, h3, h4⟩

/-! ### `extract_svg_content`: characterisation -/

lemma lowerL_append (u v : List Char) : lowerL (u ++ v) = lowerL u ++ lowerL v := by
  simp [lowerL]

lemma lowerL_cons (c : Char) (l : List Char) : lowerL (c :: l) = c.toLower :: lowerL l := by
  simp [lowerL]

lemma lowerL_length (l : List Char) : (lowerL l).length = l.length := by
  simp [lowerL]

lemma toLower_gt : Char.toLower '>' = '>' := by decide

lemma extract_of_decomp (s : String) (pre op attrs body cl post : List Char)
    (hs : s.toList = pre ++ (op ++ (attrs ++ ('>' :: (body ++ (cl ++ post))))))
    (hop : lowerL op = svgOpenPat)
    (hcl : lowerL cl = svgClosePat)
    (hpre : ∀ j < pre.length, ¬ svgOpenPat <+: (lowerL s.toList).drop j)
    (hattrs : '>' ∉ lowerL attrs)
    (hbody : ∀ j < body.length,
      ¬ svgClosePat <+: (lowerL body ++ (svgClosePat ++ lowerL post)).drop j) :
    extract_svg_content (some s) = some (String.mk (op ++ (attrs ++ ('>' :: (body ++ cl))))) := by
  have hoplen : op.length = 4 := by
    have h1 := lowerL_length op
    rw [hop] at h1
    simpa [svgOpenPat] using h1.symm
  have hcllen : cl.length = 6 := by
    have h1 := lowerL_length cl
    rw [hcl] at h1
    simpa [svgClosePat] using h1.symm
  have hlow : lowerL s.toList = lowerL pre ++
      (svgOpenPat ++ (lowerL attrs ++ ('>' :: (lowerL body ++ (svgClosePat ++ lowerL post))))) := by
    rw [hs]
    simp only [lowerL_append, lowerL_cons, toLower_gt, hop, hcl]
  have hpre' : ∀ j < (lowerL pre).length, ¬ svgOpenPat <+: (lowerL pre ++
      (svgOpenPat ++ (lowerL attrs ++ ('>' :: (lowerL body ++ (svgClosePat ++ lowerL post)))))).drop j := by
    intro j hj
    rw [← hlow]
    exact hpre j (by rw [lowerL_length] at hj; exact hj)
  have hbody' : ∀ j < (lowerL body).length,
      ¬ svgClosePat <+: (lowerL body ++ (svgClosePat ++ lowerL post)).drop j := by
    intro j hj
    exact hbody j (by rw [lowerL_length] at hj; exact hj)
  have hsearch : svgSearch (lowerL s.toList) = some ((lowerL pre).length,
      4 + (lowerL attrs).length + 1 + (lowerL body).length + 6) := by
    rw [hlow]
    exact svgSearch_complete (lowerL pre) (lowerL attrs) (lowerL body) (lowerL post) hpre' hattrs hbody'
  have hne : s ≠ "" := by
    intro h0
    rw [h0] at hs
    have hlen := congrArg List.length hs
    simp only [List.length_append, List.length_cons] at hlen
    have : ("" : String).toList.length = 0 := rfl
    omega
  have hdrop : s.toList.drop (lowerL pre).length = op ++ (attrs ++ ('>' :: (body ++ (cl ++ post)))) := by
    rw [lowerL_length, hs]
    exact dropAppendLen pre _
  have hspan : (op ++ (attrs ++ ('>' :: (body ++ (cl ++ post))))).take
      (4 + (lowerL attrs).length + 1 + (lowerL body).length + 6)
      = op ++ (attrs ++ ('>' :: (body ++ cl))) := by
    have hre : op ++ (attrs ++ ('>' :: (body ++ (cl ++ post))))
        = (op ++ (attrs ++ ('>' :: (body ++ cl)))) ++ post := by
      simp [List.append_assoc]
    rw [hre]
    have hlen2 : 4 + (lowerL attrs).length + 1 + (lowerL body).length + 6
        = (op ++ (attrs ++ ('>' :: (body ++ cl)))).length := by
      simp only [List.length_append, List.length_cons, lowerL_length, hoplen, hcllen]
      omega
    rw [hlen2]
    exact takeAppendLen _ post
  have hred : extract_svg_content (some s) = if s = "" then none else
      (match svgSearch (lowerL s.toList) with
       | none => none
       | some (i, len) => some (String.mk ((s.toList.drop i).take len))) := rfl
  rw [hred, if_neg hne, hsearch]
  show some (String.mk ((s.toList.drop (lowerL pre).length).take
      (4 + (lowerL attrs).length + 1 + (lowerL body).length + 6))) = _
  rw [hdrop, hspan]

lemma extract_eq_some (t s : String) (h : extract_svg_content (some t) = some s) :
    ∃ i len A B R, svgSearch (lowerL t.toList) = some (i, len) ∧
      s.toList = (t.toList.drop i).take len ∧
      (lowerL t.toList).drop i = svgOpenPat ++ (A ++ ('>' :: (B ++ (svgClosePat ++ R)))) ∧
      len = 4 + A.length + 1 + B.length + 6 ∧ '>' ∉ A ∧
      (∀ j < B.length, ¬ svgClosePat <+: (B ++ (svgClosePat ++ R)).drop j) := by
  have hred : extract_svg_content (some t) = if t = "" then none else
      (match svgSearch (lowerL t.toList) with
       | none => none
       | some (i, len) => some (String.mk ((t.toList.drop i).take len))) := rfl
  rw [hred] at h
  by_cases h0 : t = ""
  · rw [if_pos h0] at h; cases h
  · rw [if_neg h0] at h
    rcases hs : svgSearch (lowerL t.toList) with _ | p
    · rw [hs] at h; cases h
    · obtain ⟨i, len⟩ := p
      rw [hs] at h
      have h' : some (String.mk ((t.toList.drop i).take len)) = some s := h
      injection h' with h'
      obtain ⟨A, B, R, h1, h2, h3, h4⟩ := svgSearch_sound (lowerL t.toList) i len hs
      refine ⟨i, len, A, B, R, rfl, ?_, h1, h2, h3, h4⟩
      rw [← h']
      rfl

lemma extract_ne_some_empty (x : Option String) : extract_svg_content x ≠ some "" := by
  cases x with
  | none => simp [extract_svg_content]
  | some t =>
    intro h
    obtain ⟨i, len, A, B, R, _, hlist, h3, hlen, _, _⟩ := extract_eq_some t "" h
    have hlen0 : ((t.toList.drop i).take len).length = 0 := by
      rw [← hlist]
      rfl
    rw [List.length_take, List.length_drop] at hlen0
    have hdroplen := congrArg List.length h3
    rw [List.length_drop, lowerL_length] at hdroplen
    simp only [List.length_append, List.length_cons, svgOpenPat, svgClosePat] at hdroplen
    rcases Nat.min_eq_zero_iff.mp hlen0 with h | h
    · omega
    · simp only [List.length_cons, List.length_nil] at hdroplen
      omega

lemma strMk_toList (s : String) : String.mk s.toList = s := by
  cases s
  rfl

lemma dropToClose (A B T : List Char) :
    (svgOpenPat ++ (A ++ ('>' :: (B ++ T)))).drop (4 + A.length + 1 + B.length) = T := by
  rw [← List.drop_drop, dropOpenAttrs]
  exact dropAppendLen B T

/-- C1: for every input text containing at least one well-formed
`<svg ...>...</svg>` span — formalised as a decomposition
`pre ++ op ++ attrs ++ '>' ++ body ++ cl ++ post` where `op` lowercases to
`<svg` and `cl` to `</svg>`, no occurrence of `<svg` (case-insensitively)
starts before `op` (leftmost opening tag), the attribute region contains no
`>` (so the tag closes at the next `>`), and no occurrence of `</svg>` starts
inside `body` (the span ends at the next closing tag; line breaks may occur
anywhere) — `extract_svg_content` returns exactly that first span verbatim,
including both tags, in its original case. -/
theorem C1_extract_returns_first_span
    (s : String) (pre op attrs body cl post : List Char)
    (hs : s.toList = pre ++ (op ++ (attrs ++ ('>' :: (body ++ (cl ++ post))))))
    (hop : lowerL op = svgOpenPat)
    (hcl : lowerL cl = svgClosePat)
    (hpre : ∀ j < pre.length, ¬ svgOpenPat <+: (lowerL s.toList).drop j)
    (hattrs : '>' ∉ lowerL attrs)
    (hbody : ∀ j < body.length,
      ¬ svgClosePat <+: (lowerL body ++ (svgClosePat ++ lowerL post)).drop j) :
    extract_svg_content (some s) = some (String.mk (op ++ (attrs ++ ('>' :: (body ++ cl))))) :=
  extract_of_decomp s pre op attrs body cl post hs hop hcl hpre hattrs hbody

/-- Witness for C1 at the spec's own example response text. -/
theorem C1_witness :
    extract_svg_content (some "Sure! Here is your SVG:\n<svg width=\"10\" height=\"10\"><circle r=\"5\"/></svg>\nHope that helps")
      = some "<svg width=\"10\" height=\"10\"><circle r=\"5\"/></svg>" := by
  have h := C1_extract_returns_first_span
    "Sure! Here is your SVG:\n<svg width=\"10\" height=\"10\"><circle r=\"5\"/></svg>\nHope that helps"
    ("Sure! Here is your SVG:\n".toList) ("<svg".toList) (" width=\"10\" height=\"10\"".toList)
    ("<circle r=\"5\"/>".toList) ("</svg>".toList) ("\nHope that helps".toList)
    (by decide) (by decide) (by decide) (by decide) (by decide) (by decide)
  rw [h]
  decide

/-- C6: `extract_svg_content` returns absent on absent input (it is a total
function, so no exception can escape), and returns absent on every text in
which no case-insensitive occurrence of `<svg` precedes an occurrence of
`</svg>` (no opening-tag/closing-tag pair). -/
theorem C6_no_pair_returns_absent (t : Option String)
    (h : ∀ s : String, t = some s → ∀ i < s.toList.length, ∀ k < s.toList.length,
      ¬(i < k ∧ svgOpenPat <+: (lowerL s.toList).drop i ∧
        svgClosePat <+: (lowerL s.toList).drop k)) :
    extract_svg_content t = none := by
  cases t with
  | none => rfl
  | some s =>
    by_cases h0 : s = ""
    · rw [h0]
      decide
    · have hred : extract_svg_content (some s) = if s = "" then none else
          (match svgSearch (lowerL s.toList) with
           | none => none
           | some (i, len) => some (String.mk ((s.toList.drop i).take len))) := rfl
      rcases hsr : svgSearch (lowerL s.toList) with _ | p
      · rw [hred, if_neg h0, hsr]
      · exfalso
        obtain ⟨i, len⟩ := p
        obtain ⟨A, B, R, h1, _, _, _⟩ := svgSearch_sound (lowerL s.toList) i len hsr
        have hopen : svgOpenPat <+: (lowerL s.toList).drop i := by
          rw [h1]
          exact ⟨A ++ ('>' :: (B ++ (svgClosePat ++ R))), rfl⟩
        have hdropk : (lowerL s.toList).drop (i + (4 + A.length + 1 + B.length))
            = svgClosePat ++ R := by
          rw [← List.drop_drop, h1]
          exact dropToClose A B (svgClosePat ++ R)
        have hclose : svgClosePat <+: (lowerL s.toList).drop (i + (4 + A.length + 1 + B.length)) := by
          rw [hdropk]
          exact ⟨R, rfl⟩
        have hli := congrArg List.length h1
        rw [List.length_drop, lowerL_length] at hli
        simp only [List.length_append, List.length_cons, List.length_nil,
          svgOpenPat, svgClosePat] at hli
        have hlk := congrArg List.length hdropk
        rw [List.length_drop, lowerL_length] at hlk
        simp only [List.length_append, List.length_cons, List.length_nil,
          svgClosePat] at hlk
        exact h s rfl i (by omega) (i + (4 + A.length + 1 + B.length)) (by omega)
          ⟨by omega, hopen, hclose⟩

/-- Witness for C6 at the spec's own refusal-text example. -/
theorem C6_witness : extract_svg_content (some "I cannot help with that.") = none := by
  apply C6_no_pair_returns_absent
  intro s hs
  injection hs with hs
  subst hs
  decide

/-- C9: extraction is idempotent — whenever `extract_svg_content` returns a
present string `s`, running it again on `s` returns `s` itself. -/
theorem C9_extract_idempotent (t s : String)
    (h : extract_svg_content (some t) = some s) :
    extract_svg_content (some s) = some s := by
  obtain ⟨i, len, A, B, R, _, hslist, hdecomp, hlen, hA, hB⟩ := extract_eq_some t s h
  have hdlen := congrArg List.length hdecomp
  rw [List.length_drop, lowerL_length] at hdlen
  simp only [List.length_append, List.length_cons, List.length_nil,
    svgOpenPat, svgClosePat] at hdlen
  have hslen : s.toList.length = len := by
    have hle : len ≤ t.toList.length - i := by omega
    rw [hslist, List.length_take, List.length_drop, Nat.min_eq_left hle]
  have hlows : lowerL s.toList = svgOpenPat ++ (A ++ ('>' :: (B ++ (svgClosePat ++ [])))) := by
    rw [hslist]
    show ((t.toList.drop i).take len).map Char.toLower = _
    rw [List.map_take, List.map_drop]
    show ((lowerL t.toList).drop i).take len = _
    rw [hdecomp]
    have hre : svgOpenPat ++ (A ++ ('>' :: (B ++ (svgClosePat ++ R))))
        = (svgOpenPat ++ (A ++ ('>' :: (B ++ (svgClosePat ++ []))))) ++ R := by
      simp [List.append_assoc]
    rw [hre]
    have hlen3 : len = (svgOpenPat ++ (A ++ ('>' :: (B ++ (svgClosePat ++ []))))).length := by
      simp only [List.length_append, List.length_cons, List.length_nil,
        svgOpenPat, svgClosePat]
      omega
    rw [hlen3]
    exact takeAppendLen _ R
  have hB' : ∀ j < B.length, ¬ svgClosePat <+: (B ++ (svgClosePat ++ [])).drop j := by
    intro j hj hle
    apply hB j hj
    obtain ⟨tl, htl⟩ := hle
    have hjle : j ≤ (B ++ svgClosePat).length := by
      simp only [List.length_append]
      omega
    have e1 : (B ++ (svgClosePat ++ [])).drop j = (B ++ svgClosePat).drop j := by
      simp [List.append_assoc]
    have e2 : (B ++ (svgClosePat ++ R)).drop j = (B ++ svgClosePat).drop j ++ R := by
      rw [← List.append_assoc]
      exact dropAppendLe R (B ++ svgClosePat) j hjle
    rw [e1] at htl
    rw [e2]
    exact ⟨tl ++ R, by rw [← List.append_assoc, htl]⟩
  have hsearch2 : svgSearch (lowerL s.toList) = some (0, 4 + A.length + 1 + B.length + 6) := by
    rw [hlows]
    have hc := svgSearch_complete [] A B []
      (by intro j hj; exact absurd hj (by simp)) hA hB'
    simpa using hc
  have hne : s ≠ "" := by
    intro h0
    rw [h0] at hslen
    have : (0 : Nat) = len := hslen
    omega
  have hred : extract_svg_content (some s) = if s = "" then none else
      (match svgSearch (lowerL s.toList) with
       | none => none
       | some (i, len) => some (String.mk ((s.toList.drop i).take len))) := rfl
  rw [hred, if_neg hne, hsearch2]
  show some (String.mk ((s.toList.drop 0).take (4 + A.length + 1 + B.length + 6))) = some s
  rw [List.drop_zero, ← hlen, ← hslen, List.take_length, strMk_toList]

/-- Witness for C9: extraction of the already-extracted span is a fixed point. -/
theorem C9_witness :
    extract_svg_content (some "<svg width=\"10\" height=\"10\"><circle r=\"5\"/></svg>")
      = some "<svg width=\"10\" height=\"10\"><circle r=\"5\"/></svg>" :=
  C9_extract_idempotent
    "Sure! Here is your SVG:\n<svg width=\"10\" height=\"10\"><circle r=\"5\"/></svg>\nHope that helps"
    "<svg width=\"10\" height=\"10\"><circle r=\"5\"/></svg>" (by decide)

/-- C2: for every `BenchmarkResult` produced by `test_model`, `success` is true
iff `svg_content` is present, and `error` is present iff `success` is false —
never success with an error present, never failure with both fields absent. -/
theorem C2_result_invariant (env : Env) (m : ModelInfo) :
    ((test_model env m).success = true ↔ (test_model env m).svg_content ≠ none) ∧
    ((test_model env m).error ≠ none ↔ (test_model env m).success = false) := by
  unfold test_model
  cases adapterDispatch env m with
  | error e => simp
  | ok body =>
    cases body with
    | none => simp
    | some content =>
      rcases hsvg : extract_svg_content (some content) with _ | str
      · simp [hsvg, pyTruthy]
      · have hne : str ≠ "" := by
          intro h0
          rw [h0] at hsvg
          exact extract_ne_some_empty _ hsvg
        simp [hsvg, pyTruthy, hne]

/-- C10: `test_model` is total at the per-model boundary — it always returns a
`BenchmarkResult` carrying the model's name, and in particular a `model_info`
whose type matches none of the four providers still yields a failed record
(the unbound `response` read raises `NameError`, which the `except` catches)
rather than a propagated exception. -/
theorem C10_test_model_total (env : Env) (m : ModelInfo) :
    (∃ r : BenchmarkResult, test_model env m = r) ∧
    (test_model env m).model_name = m.name ∧
    (m.type ≠ "vertex" → m.type ≠ "anthropic" → m.type ≠ "azure" → m.type ≠ "deepseek" →
      test_model env m =
        { model_name := m.name, success := false, svg_content := none,
          error := some "NameError: name response is not defined" }) := by
  refine ⟨⟨test_model env m, rfl⟩, ?_, ?_⟩
  · unfold test_model
    cases adapterDispatch env m with
    | error e => rfl
    | ok body =>
      cases body with
      | none => rfl
      | some content => rfl
  · intro h1 h2 h3 h4
    unfold test_model adapterDispatch
    rw [if_neg h1, if_neg h2, if_neg h3, if_neg h4]

/-- Witness for C10: a model of unknown type still produces a failed record. -/
theorem C10_witness :
    test_model
      { googleCreds := none, refreshOk := false, geminiSdk := Except.error "x",
        anthropicKey := none, claudeAns := { transport := none, status := 200, body := none },
        azureKey := none, azureAns := { transport := none, status := 200, body := none },
        deepseekAns := { transport := none, status := 200, body := none } }
      { id := "m", name := "Mystery", type := "mystery" } =
      { model_name := "Mystery", success := false, svg_content := none,
        error := some "NameError: name response is not defined" } :=
  (C10_test_model_total
    { googleCreds := none, refreshOk := false, geminiSdk := Except.error "x",
      anthropicKey := none, claudeAns := { transport := none, status := 200, body := none },
      azureKey := none, azureAns := { transport := none, status := 200, body := none },
      deepseekAns := { transport := none, status := 200, body := none } }
    { id := "m", name := "Mystery", type := "mystery" }).2.2
    (by decide) (by decide) (by decide) (by decide)

/-! ### The coordinator loop -/

lemma run_benchmark_loop_length (env : Nat → Env) :
    ∀ (models : List ModelInfo) (i0 : Nat),
      (run_benchmark_loop env models i0).length = models.length := by
  intro models
  induction models with
  | nil => intro i0; rfl
  | cons m rest ih => intro i0; simp [run_benchmark_loop, ih]

lemma run_benchmark_loop_getElem (env : Nat → Env) :
    ∀ (models : List ModelInfo) (i0 i : Nat),
      (run_benchmark_loop env models i0)[i]? =
        (models[i]?).map (fun m => test_model (env (i0 + i)) m) := by
  intro models
  induction models with
  | nil => intro i0 i; simp [run_benchmark_loop]
  | cons m rest ih =>
    intro i0 i
    cases i with
    | zero => simp [run_benchmark_loop]
    | succ i =>
      have hcons : run_benchmark_loop env (m :: rest) i0
          = test_model (env i0) m :: run_benchmark_loop env rest (i0 + 1) := rfl
      rw [hcons, List.getElem?_cons_succ, List.getElem?_cons_succ, ih (i0 + 1) i]
      have harith : i0 + 1 + i = i0 + (i + 1) := by omega
      rw [harith]

/-- C7: for every selection, the coordinator produces exactly one
`BenchmarkResult` per selected model, in selection order: the i-th result is
`test_model` (adapter dispatch followed by extraction) applied to the i-th
selected model against the world state of the i-th iteration. -/
theorem C7_run_order (selected : List ModelInfo) (env : Nat → Env) :
    (run_benchmark selected env).1.length = selected.length ∧
    ∀ i : Nat, (run_benchmark selected env).1[i]? =
      (selected[i]?).map (fun m => test_model (env i) m) := by
  constructor
  · exact run_benchmark_loop_length env selected 0
  · intro i
    have h := run_benchmark_loop_getElem env selected 0 i
    simpa using h

lemma filter_success_pos (l : List BenchmarkResult) :
    (0 < (l.filter (fun r => r.success)).length) ↔ ∃ r ∈ l, r.success = true := by
  induction l with
  | nil => simp
  | cons a t ih =>
    rcases ha : a.success with _ | _
    · simp [List.filter_cons, ha, ih]
    · simp [List.filter_cons, ha]

/-- C8: at the end of a run the full result sequence (one entry per selected
model) becomes the visible benchmark state, and the success signal is shown
iff at least one result in the sequence has `success = true` — in particular
it is shown whenever some result succeeded, as the spec states. -/
theorem C8_completion_state (selected : List ModelInfo) (env : Nat → Env) :
    (run_benchmark selected env).1.length = selected.length ∧
    ((run_benchmark selected env).2 = true ↔
      ∃ r ∈ (run_benchmark selected env).1, r.success = true) := by
  refine ⟨run_benchmark_loop_length env selected 0, ?_⟩
  show decide (0 < ((run_benchmark_loop env selected 0).filter (fun r => r.success)).length)
      = true ↔ _
  simp only [decide_eq_true_eq]
  exact filter_success_pos _

/-- C3: one model's failure does not halt the loop — with three selected
models where the second is the Anthropic model and its request raises a
transport error, the run still attempts and records the third, yielding three
results in order: the first and third are their own independent `test_model`
outcomes and the second is a failed record carrying the transport error. -/
theorem C3_failure_isolation (m1 m2 m3 : ModelInfo) (env : Nat → Env) (key e : String)
    (h2 : m2.type = "anthropic")
    (hk : (env 1).anthropicKey = some key)
    (he : (env 1).claudeAns.transport = some e) :
    (run_benchmark [m1, m2, m3] env).1 =
      [test_model (env 0) m1,
       { model_name := m2.name, success := false, svg_content := none, error := some e },
       test_model (env 2) m3] := by
  show run_benchmark_loop env [m1, m2, m3] 0 = _
  have hmid : test_model (env 1) m2 =
      { model_name := m2.name, success := false, svg_content := none, error := some e } := by
    unfold test_model adapterDispatch
    rw [h2, if_neg (by decide : ¬("anthropic" : String) = "vertex"),
      if_pos (rfl : ("anthropic" : String) = "anthropic"), hk]
    unfold call_claude
    rw [he]
  show [test_model (env 0) m1, test_model (env 1) m2, test_model (env 2) m3] = _
  rw [hmid]

/-- Witness for C3: a concrete three-model run where the second model's
transport fails while the first fails extraction and the third succeeds. -/
theorem C3_witness :
    (run_benchmark
      [{ id := "gemini-2.5-pro", name := "Gemini 2.5 Pro", type := "vertex" },
       { id := "claude-3-5-sonnet-20241022", name := "Claude 3.5 Sonnet", type := "anthropic" },
       { id := "gpt-4", name := "Azure GPT-4", type := "azure" }]
      (fun _ =>
        { googleCreds := some "c", refreshOk := true, geminiSdk := Except.ok "no svg here",
          anthropicKey := some "k",
          claudeAns := { transport := some "ConnectionError", status := 0, body := none },
          azureKey := some "k",
          azureAns := { transport := none, status := 200, body := some "<svg>ok</svg>" },
          deepseekAns := { transport := none, status := 200, body := none } })).1 =
      [{ model_name := "Gemini 2.5 Pro", success := false, svg_content := none,
         error := some "No valid SVG generated" },
       { model_name := "Claude 3.5 Sonnet", success := false, svg_content := none,
         error := some "ConnectionError" },
       { model_name := "Azure GPT-4", success := true, svg_content := some "<svg>ok</svg>",
         error := none }] := by
  have h := C3_failure_isolation
    { id := "gemini-2.5-pro", name := "Gemini 2.5 Pro", type := "vertex" }
    { id := "claude-3-5-sonnet-20241022", name := "Claude 3.5 Sonnet", type := "anthropic" }
    { id := "gpt-4", name := "Azure GPT-4", type := "azure" }
    (fun _ =>
      { googleCreds := some "c", refreshOk := true, geminiSdk := Except.ok "no svg here",
        anthropicKey := some "k",
        claudeAns := { transport := some "ConnectionError", status := 0, body := none },
        azureKey := some "k",
        azureAns := { transport := none, status := 200, body := some "<svg>ok</svg>" },
        deepseekAns := { transport := none, status := 200, body := none } })
    "k" "ConnectionError" rfl rfl rfl
  rw [h]
  decide

/-! ### Adapter error behaviour -/

/-- C4 counterexample: `call_deepseek` does not surface a transport error to
its caller — the internal `except Exception` converts it into a successful
empty-content response, so the claim that every adapter raises is false. -/
theorem C4_counterexample :
    (call_deepseek (some "token") true
      { transport := some "ConnectionError", status := 0, body := none }).1
      = Except.ok (some "") := rfl

/-- C4 (amended): `call_gemini`, `call_claude` and `call_azure_gpt4` surface a
missing credential or a transport error as a raised error, and
`call_azure_gpt4` additionally raises on every 4xx/5xx status;
`call_deepseek` never raises — each of its failures is caught internally and
converted into a successful empty-content response; and every adapter issues
at most one HTTP/SDK request per invocation, with no retry and no backoff. -/
theorem C4_amended_adapter_errors :
    (∀ ans, (call_claude none ans).1 = Except.error "KeyError: ANTHROPIC_API_KEY") ∧
    (∀ k ans e, ans.transport = some e → (call_claude (some k) ans).1 = Except.error e) ∧
    (∀ sdk, (call_gemini none sdk).1 = Except.error "KeyError: google_creds") ∧
    (∀ c e, (call_gemini (some c) (Except.error e)).1 = Except.error e) ∧
    (∀ ans, (call_azure_gpt4 none ans).1 = Except.error "KeyError: AZURE_OPENAI_KEY") ∧
    (∀ k ans e, ans.transport = some e → (call_azure_gpt4 (some k) ans).1 = Except.error e) ∧
    (∀ k ans, ans.transport = none → 400 ≤ ans.status → ans.status < 600 →
      (call_azure_gpt4 (some k) ans).1 = Except.error "HTTPError") ∧
    (∀ creds r ans, ∃ v, (call_deepseek creds r ans).1 = Except.ok v) ∧
    (∀ creds sdk, (call_gemini creds sdk).2 ≤ 1) ∧
    (∀ k ans, (call_claude k ans).2 ≤ 1) ∧
    (∀ k ans, (call_azure_gpt4 k ans).2 ≤ 1) ∧
    (∀ creds r ans, (call_deepseek creds r ans).2 ≤ 1) := by
  refine ⟨?_, ?_, ?_, ?_, ?_, ?_, ?_, ?_, ?_, ?_, ?_, ?_⟩
  · intro ans; rfl
  · intro k ans e he; simp [call_claude, he]
  · intro sdk; rfl
  · intro c e; rfl
  · intro ans; rfl
  · intro k ans e he; simp [call_azure_gpt4, he]
  · intro k ans h1 h2 h3
    simp only [call_azure_gpt4, h1]
    rw [if_pos ⟨h2, h3⟩]
  · intro creds r ans
    have hcatch : ∀ p : Except String (Option String) × Nat,
        ∃ v, ((match p with
          | (Except.error _, n) => ((Except.ok (some "") : Except String (Option String)), n)
          | (Except.ok w, n) => (Except.ok w, n)) : Except String (Option String) × Nat).1
            = Except.ok v := by
      rintro ⟨e | w, n⟩
      · exact ⟨some "", rfl⟩
      · exact ⟨w, rfl⟩
    exact hcatch _
  · intro creds sdk
    rcases creds with _ | c
    · simp [call_gemini]
    · rcases sdk with e | t <;> simp [call_gemini]
  · intro k ans
    obtain ⟨tr, st, bd⟩ := ans
    rcases k with _ | k
    · simp [call_claude]
    · rcases tr with _ | e
      · rcases bd with _ | b <;> simp [call_claude]
      · simp [call_claude]
  · intro k ans
    obtain ⟨tr, st, bd⟩ := ans
    rcases k with _ | k
    · simp [call_azure_gpt4]
    · rcases tr with _ | e
      · by_cases hst : 400 ≤ st ∧ st < 600 <;> simp [call_azure_gpt4, hst]
      · simp [call_azure_gpt4]
  · intro creds r ans
    have hcatch : ∀ p : Except String (Option String) × Nat,
        (match p with
          | (Except.error _, n) => ((Except.ok (some "") : Except String (Option String)), n)
          | (Except.ok w, n) => (Except.ok w, n)).2 = p.2 := by
      rintro ⟨e | w, n⟩ <;> rfl
    obtain ⟨tr, st, bd⟩ := ans
    rcases creds with _ | c
    · simp [call_deepseek]
    · rcases r with _ | _
      · simp [call_deepseek]
      · rcases tr with _ | e
        · by_cases h404 : st = 404
          · simp [call_deepseek, h404]
          · by_cases hst : 400 ≤ st ∧ st < 600 <;> simp [call_deepseek, h404, hst]
        · simp [call_deepseek]

/-- Witness for C4 (amended): a transport error raised by the Claude adapter
and a 500 status raised by the Azure adapter, each surfaced to the caller. -/
theorem C4_amended_witness :
    (call_claude (some "k") { transport := some "boom", status := 0, body := none }).1
        = Except.error "boom" ∧
    (call_azure_gpt4 (some "k") { transport := none, status := 500, body := none }).1
        = Except.error "HTTPError" :=
  ⟨C4_amended_adapter_errors.2.1 "k"
      { transport := some "boom", status := 0, body := none } "boom" rfl,
   C4_amended_adapter_errors.2.2.2.2.2.2.1 "k"
      { transport := none, status := 500, body := none } rfl (by decide) (by decide)⟩

/-! ### Renderer attribute injection -/

lemma firstOccIdx_isSome (pat : List Char) : ∀ (u v : List Char),
    (firstOccIdx pat (u ++ (pat ++ v))).isSome = true := by
  intro u
  induction u with
  | nil =>
    intro v
    simp only [List.nil_append]
    rcases hl : pat ++ v with _ | ⟨c, rest⟩
    · have hp : pat = [] := (List.append_eq_nil.mp hl).1
      simp [firstOccIdx, hp, hasPrefixL]
    · have hb : hasPrefixL pat (c :: rest) = true :=
        (hasPrefixL_iff _ _).mpr ⟨v, hl⟩
      simp [firstOccIdx, hb]
  | cons a u ih =>
    intro v
    by_cases hb : hasPrefixL pat (a :: (u ++ (pat ++ v))) = true
    · simp [firstOccIdx, hb]
    · have heq : firstOccIdx pat (a :: (u ++ (pat ++ v)))
          = if hasPrefixL pat (a :: (u ++ (pat ++ v))) then some 0
            else (firstOccIdx pat (u ++ (pat ++ v))).map (· + 1) := rfl
      rw [List.cons_append, heq, if_neg hb]
      simp [ih v]

lemma containsSub_iff (pat l : List Char) : containsSub pat l = true ↔ pat <:+: l := by
  unfold containsSub
  constructor
  · intro h
    rcases ho : firstOccIdx pat l with _ | k
    · rw [ho] at h
      simp at h
    · obtain ⟨h1, _⟩ := firstOccIdx_sound pat l k ho
      obtain ⟨tl, htl⟩ := h1
      refine ⟨l.take k, tl, ?_⟩
      calc l.take k ++ pat ++ tl = l.take k ++ (pat ++ tl) := by rw [List.append_assoc]
        _ = l.take k ++ l.drop k := by rw [htl]
        _ = l := List.take_append_drop k l
  · rintro ⟨u, v, huv⟩
    have h2 : u ++ (pat ++ v) = l := by rw [← List.append_assoc, huv]
    rw [← h2]
    exact firstOccIdx_isSome pat u v

lemma replaceSvgOpen_cons_neg (c : Char) (rest : List Char)
    (h : ¬ svgOpenPat <+: (c :: rest)) :
    replaceSvgOpen (c :: rest) = c :: replaceSvgOpen rest :=
  replaceSvgOpen.eq_3 c rest (fun r1 hc hr => h ⟨r1, by rw [hc, hr]; rfl⟩)

lemma replaceSvgOpen_id (l : List Char) (h : ∀ j < l.length, ¬ svgOpenPat <+: l.drop j) :
    replaceSvgOpen l = l := by
  induction l with
  | nil => rfl
  | cons c rest ih =>
    have h0 : ¬ svgOpenPat <+: (c :: rest) := by
      have := h 0 (by simp)
      simpa using this
    rw [replaceSvgOpen_cons_neg c rest h0]
    rw [ih (fun j hj => by
      have := h (j + 1) (by simpa using Nat.succ_lt_succ hj)
      simpa [drop_succ_cons'] using this)]

lemma replaceSvgOpen_single (v : List Char) : ∀ (u : List Char),
    (∀ j < u.length, ¬ svgOpenPat <+: (u ++ (svgOpenPat ++ v)).drop j) →
    (∀ j < v.length, ¬ svgOpenPat <+: v.drop j) →
    replaceSvgOpen (u ++ (svgOpenPat ++ v)) = u ++ (svgInjected.toList ++ v) := by
  intro u
  induction u with
  | nil =>
    intro _ hv
    simp only [List.nil_append]
    show replaceSvgOpen ('<' :: 's' :: 'v' :: 'g' :: v) = svgInjected.toList ++ v
    rw [replaceSvgOpen.eq_2, replaceSvgOpen_id v hv]
  | cons a u ih =>
    intro hu hv
    have h0 : ¬ svgOpenPat <+: (a :: (u ++ (svgOpenPat ++ v))) := by
      have := hu 0 (by simp)
      simpa using this
    rw [List.cons_append, replaceSvgOpen_cons_neg _ _ h0]
    rw [ih (fun j hj => by
      have := hu (j + 1) (by simpa using Nat.succ_lt_succ hj)
      simpa [drop_succ_cons'] using this) hv]
    rfl

/-- C5 counterexample: the input `<SVG></SVG>` contains neither the substring
`viewBox` nor the substring `width` (the substring test is case-sensitive),
and it is a genuine SVG span as the extractor itself certifies, yet
`display_svg` passes it to encoding unmodified — no default attributes are
injected, because `str.replace` only rewrites the exact lowercase `<svg`. -/
theorem C5_counterexample :
    containsSub ("viewBox".toList) ("<SVG></SVG>".toList) = false ∧
    containsSub ("width".toList) ("<SVG></SVG>".toList) = false ∧
    extract_svg_content (some "<SVG></SVG>") = some "<SVG></SVG>" ∧
    display_svg (some "<SVG></SVG>") = some "<SVG></SVG>" := by
  decide

/-- C5 (amended): for a present SVG input whose single occurrence of the
exact lowercase substring `<svg` is its opening tag, `display_svg` rewrites
that occurrence to `<svg viewBox="0 0 400 300" width="400" height="300"` iff
neither the substring `viewBox` nor the substring `width` occurs in the input
(a case-sensitive substring test, not attribute parsing); otherwise the text
reaches base64 encoding unmodified. Occurrences of differently-cased opening
tags such as `<SVG` are never rewritten. -/
theorem C5_amended_injection (s : String) (u v : List Char)
    (hs : s.toList = u ++ (svgOpenPat ++ v))
    (hu : ∀ j < u.length, ¬ svgOpenPat <+: s.toList.drop j)
    (hv : ∀ j < v.length, ¬ svgOpenPat <+: v.drop j) :
    display_svg (some s) =
      some (if containsSub ("viewBox".toList) s.toList
               || containsSub ("width".toList) s.toList
            then s
            else String.mk (u ++ (svgInjected.toList ++ v))) := by
  have hne : s ≠ "" := by
    intro h0
    rw [h0] at hs
    have hlen := congrArg List.length hs
    simp only [List.length_append, svgOpenPat, List.length_cons, List.length_nil] at hlen
    have : ("" : String).toList.length = 0 := rfl
    omega
  have hred : display_svg (some s) = if s = "" then none else
      if !containsSub ("viewBox".toList) s.toList
          && !containsSub ("width".toList) s.toList then
        some (String.mk (replaceSvgOpen s.toList))
      else some s := rfl
  rw [hred, if_neg hne]
  rcases hvb : containsSub ("viewBox".toList) s.toList with _ | _ <;>
    rcases hw : containsSub ("width".toList) s.toList with _ | _
  · simp only [hvb, hw, Bool.not_false, Bool.and_self, if_true, Bool.false_or,
      Bool.or_self, if_false, Bool.false_eq_true]
    have hu' : ∀ j < u.length, ¬ svgOpenPat <+: (u ++ (svgOpenPat ++ v)).drop j := by
      intro j hj
      rw [← hs]
      exact hu j hj
    rw [hs, replaceSvgOpen_single v u hu' hv]
  · simp [hvb, hw]
  · simp [hvb, hw]
  · simp [hvb, hw]

/-- Witness for C5 (amended): a lowercase SVG without `viewBox`/`width` gets
the default attributes injected into its opening tag. -/
theorem C5_amended_witness :
    display_svg (some "<svg><circle/></svg>")
      = some "<svg viewBox=\"0 0 400 300\" width=\"400\" height=\"300\"><circle/></svg>" := by
  have h := C5_amended_injection "<svg><circle/></svg>" [] ("><circle/></svg>".toList)
    (by decide) (by decide) (by decide)
  rw [h]
  decide
